import Mathlib

/-!
Shallow embedding of `pyrsync.py`, a CLI wrapper that builds and runs
`rsync` commands.  Python strings are modelled as `List Char`; the
filesystem queried during argument resolution is an abstract pair of
predicates; the executor's observable behaviour (directory creation,
printed messages, spawned child processes) is a list of events.
-/

namespace Pyrsync

/-- POSIX path separator (`os.sep`). -/
def sep : Char := '/'

/-- The characters of a string literal, our model of a Python `str`. -/
def chars (s : String) : List Char := s.data

/-- `remove_ending_separator` from pyrsync.py: if the path ends with
`os.sep`, drop that last character (`path[:-1]`), otherwise return the
path unchanged. -/
def remove_ending_separator (path : List Char) : List Char :=
  if path.getLast? = some sep then path.dropLast else path

/-- Python `str.strip()`: remove leading and trailing whitespace. -/
def pyStrip (s : List Char) : List Char :=
  ((s.dropWhile Char.isWhitespace).reverse.dropWhile Char.isWhitespace).reverse

/-- Worker for Python `str.replace(old, new)` with nonempty `old`:
scan left to right, replacing nonoverlapping occurrences.  The `fuel`
argument makes the recursion structural; `fuel ≥ s.length` suffices
because every step consumes at least one character of `s`. -/
def pyReplaceGo (old new : List Char) : Nat → List Char → List Char
  | _, [] => []
  | 0, s => s
  | fuel + 1, c :: rest =>
    if old.isPrefixOf (c :: rest) then
      new ++ pyReplaceGo old new fuel (rest.drop (old.length - 1))
    else
      c :: pyReplaceGo old new fuel rest

/-- Python `str.replace(old, new)`: replace every (leftmost,
nonoverlapping) occurrence of `old` in `s` by `new`.  For empty `old`,
Python inserts `new` before every character and at the end. -/
def pyReplace (s old new : List Char) : List Char :=
  if old = [] then new ++ s.foldr (fun c acc => c :: (new ++ acc)) []
  else pyReplaceGo old new s.length s

/-- `remove_origin_arg_from_path_arg` from pyrsync.py:
normalize the trailing separator, then if the path starts with the
origin, do `path.replace(origin, '').strip()`. -/
def remove_origin_arg_from_path_arg (origin path : List Char) : List Char :=
  let path1 := remove_ending_separator path
  if origin.isPrefixOf path1 then pyStrip (pyReplace path1 origin [])
  else path1

/-- Abstract view of the filesystem consulted during resolution:
which paths exist (`os.path.exists`) and which are regular files
(`os.path.isfile`). -/
structure FS where
  pathExists : List Char → Bool
  isfile : List Char → Bool

/-- POSIX `os.path.join` on two components: an absolute second
component discards the first; otherwise insert a separator unless the
first component is empty or already ends with one. -/
def os_path_join (a b : List Char) : List Char :=
  if b.head? = some sep then b
  else if a = [] ∨ a.getLast? = some sep then a ++ b
  else a ++ sep :: b

/-- POSIX `os.path.dirname`: everything up to the final separator,
with trailing separators stripped unless the head is all separators. -/
def os_path_dirname (p : List Char) : List Char :=
  let i := match p.reverse.findIdx? (· = sep) with
    | none => 0
    | some j => p.length - j
  let head := p.take i
  if head ≠ [] ∧ head.any (· ≠ sep) then (head.reverse.dropWhile (· = sep)).reverse
  else head

/-- The argparse namespace of pyrsync.py.  The same record is used for
the raw parsed arguments and for the resolved configuration, mirroring
how `init_args` mutates a single namespace in place. -/
structure Args where
  origin : List Char
  dest : List Char
  folders : List (List Char)
  files : List (List Char)
  exclude : List (List Char)
  delete : Bool
  owner : Bool
  group : Bool
  executability : Bool
  verbose : Bool
  progress : Bool
  dry_run : Bool
  delete_excluded : Bool
  mirroring : Bool
  print_cmd_only : Bool
deriving DecidableEq

/-- `set_folders_args` from pyrsync.py: strip the origin from each
folder argument, check that the joined path exists under the origin,
and raise `FileNotFoundError` naming the missing path otherwise. -/
def set_folders_args (fs : FS) (origin : List Char) :
    List (List Char) → Except (List Char) (List (List Char))
  | [] => Except.ok []
  | folder :: rest =>
    let f := remove_origin_arg_from_path_arg origin folder
    let folder_path := os_path_join origin f
    if fs.pathExists folder_path then
      match set_folders_args fs origin rest with
      | Except.ok r => Except.ok (f :: r)
      | Except.error e => Except.error e
    else
      Except.error (chars "Folder does not exist on origin: " ++ folder_path)

/-- `set_files_args` from pyrsync.py: same as `set_folders_args` but
checking `os.path.isfile`. -/
def set_files_args (fs : FS) (origin : List Char) :
    List (List Char) → Except (List Char) (List (List Char))
  | [] => Except.ok []
  | file :: rest =>
    let f := remove_origin_arg_from_path_arg origin file
    let file_path := os_path_join origin f
    if fs.isfile file_path then
      match set_files_args fs origin rest with
      | Except.ok r => Except.ok (f :: r)
      | Except.error e => Except.error e
    else
      Except.error (chars "File does not exist on origin: " ++ file_path)

/-- `set_excludes_args` from pyrsync.py: wrap each pattern in the
rsync exclude-option syntax, preserving order. -/
def set_excludes_args (excludes : List (List Char)) : List (List Char) :=
  excludes.map (fun e => chars "--exclude \"" ++ e ++ chars "\"")

/-- `init_args` from pyrsync.py (after argparse has produced the raw
namespace): normalize origin/dest, resolve folders then files
(propagating the first `FileNotFoundError`), wrap excludes, and, when
mirroring is set, force delete/owner/group/executability to true. -/
def init_args (fs : FS) (args : Args) : Except (List Char) Args :=
  let origin := remove_ending_separator args.origin
  let dest := remove_ending_separator args.dest
  match set_folders_args fs origin args.folders with
  | Except.error e => Except.error e
  | Except.ok folders =>
    match set_files_args fs origin args.files with
    | Except.error e => Except.error e
    | Except.ok files =>
      let a := { args with
        origin := origin, dest := dest, folders := folders, files := files,
        exclude := set_excludes_args args.exclude }
      if a.mirroring then
        Except.ok { a with delete := true, owner := true, group := true, executability := true }
      else
        Except.ok a

/-- The boolean options of `add_boolean_rsync_options`, in the fixed
order of its `opts` list, paired with their Python attribute names
(the `getattr` dispatch of the source). -/
def optPairs (args : Args) : List (Bool × List Char) :=
  [(args.delete, chars "delete"), (args.verbose, chars "verbose"),
   (args.progress, chars "progress"), (args.owner, chars "owner"),
   (args.group, chars "group"), (args.executability, chars "executability"),
   (args.dry_run, chars "dry_run"), (args.delete_excluded, chars "delete_excluded")]

/-- `add_boolean_rsync_options` from pyrsync.py: for each active
option, append `' --' + opt.replace('_', '-')` to the command. -/
def add_boolean_rsync_options (args : Args) (rsync_cmd : List Char) : List Char :=
  (optPairs args).foldl
    (fun cmd p =>
      if p.1 then cmd ++ chars " --" ++ pyReplace p.2 (chars "_") (chars "-")
      else cmd)
    rsync_cmd

/-- Python `' '.join` (here generalized to any separator). -/
def pyJoin (s : List Char) (l : List (List Char)) : List Char := List.intercalate s l

/-- `add_exclude_rsync_options` from pyrsync.py:
`'{} {}'.format(rsync_cmd, ' '.join(args.exclude))`. -/
def add_exclude_rsync_options (args : Args) (rsync_cmd : List Char) : List Char :=
  rsync_cmd ++ chars " " ++ pyJoin (chars " ") args.exclude

/-- The base command built at the top of `run_rsync`, before any
target paths are appended. -/
def base_rsync_cmd (args : Args) : List Char :=
  add_exclude_rsync_options args (add_boolean_rsync_options args (chars "rsync -rulHt"))

/-- Observable effects of the executor: recursive directory creation
(`force_mkdirs`), the status/command message printed by `print_msg`,
and the spawning of the rsync child process (`run_cmd` in the source). -/
inductive Event where
  | mkdirs (path : List Char)
  | msg (origin dest cmd : List Char)
  | spawn (cmd : List Char)
deriving DecidableEq

/-- Whether an event is the spawning of a child process. -/
def Event.isSpawn : Event → Bool
  | .spawn _ => true
  | _ => false

/-- `print_and_run` from pyrsync.py: format the full command with
quoted origin/dest, print the message, and spawn the child process
unless `print_cmd_only` is set. -/
def print_and_run (rsync_cmd origin dest : List Char) (onlyPrint : Bool) : List Event :=
  let cmd := rsync_cmd ++ chars " \"" ++ origin ++ chars "\" \"" ++ dest ++ chars "\""
  Event.msg origin dest cmd :: (if onlyPrint then [] else [Event.spawn cmd])

/-- `run_rsync_folders` from pyrsync.py: for each folder, in order,
create the destination subfolder and then print-and-run with the
separator-suffixed source/destination paths. -/
def run_rsync_folders (args : Args) (rsync_cmd : List Char) : List Event :=
  args.folders.foldr
    (fun folder acc =>
      let origin_folder_path := os_path_join args.origin (folder ++ [sep])
      let dest_folder_path := os_path_join args.dest (folder ++ [sep])
      (Event.mkdirs dest_folder_path ::
        print_and_run rsync_cmd origin_folder_path dest_folder_path args.print_cmd_only) ++ acc)
    []

/-- `run_rsync_files` from pyrsync.py: for each file, in order, create
the destination parent directory and then print-and-run with the exact
file paths. -/
def run_rsync_files (args : Args) (rsync_cmd : List Char) : List Event :=
  args.files.foldr
    (fun file acc =>
      let dest_file_folder_path := os_path_join args.dest (os_path_dirname file)
      let origin_file_path := os_path_join args.origin file
      let dest_file_path := os_path_join args.dest file
      (Event.mkdirs dest_file_folder_path ::
        print_and_run rsync_cmd origin_file_path dest_file_path args.print_cmd_only) ++ acc)
    []

/-- `run_rsync_origin_dest` from pyrsync.py: only when neither folders
nor files were given, print-and-run origin to dest directly. -/
def run_rsync_origin_dest (args : Args) (rsync_cmd : List Char) : List Event :=
  if args.folders = [] ∧ args.files = [] then
    print_and_run rsync_cmd args.origin args.dest args.print_cmd_only
  else []

/-- `run_rsync` from pyrsync.py: build the base command, then process
folders, files, and the whole-origin fallback, in that order. -/
def run_rsync (args : Args) : List Event :=
  let rsync_cmd := base_rsync_cmd args
  run_rsync_folders args rsync_cmd ++ run_rsync_files args rsync_cmd ++
    run_rsync_origin_dest args rsync_cmd

/-- `main` from pyrsync.py: resolve the arguments, then run.  A
`FileNotFoundError` raised during resolution aborts the program before
any events are produced; the error message is returned alongside the
(empty) event trace. -/
def pyrsync_main (fs : FS) (raw : Args) : List Event × Option (List Char) :=
  match init_args fs raw with
  | Except.error e => ([], some e)
  | Except.ok args => (run_rsync args, none)

/-- Models Python `os.makedirs` with its default `exist_ok=False`: it
raises `FileExistsError` when the target already exists, and otherwise
creates it.  The directory state is the set of existing paths;
intermediate-directory creation is irrelevant to the claims and
elided. -/
def os_makedirs (d : List Char → Bool) (p : List Char) :
    Except Unit (List Char → Bool) :=
  if d p then Except.error () else Except.ok (fun q => if q = p then true else d q)

/-- `force_mkdirs` from pyrsync.py:
`try: os.makedirs(path) except FileExistsError: pass`. -/
def force_mkdirs (d : List Char → Bool) (p : List Char) : List Char → Bool :=
  match os_makedirs d p with
  | Except.error _ => d
  | Except.ok d2 => d2

/-- Number of positions at which `pat` occurs in `s`. -/
def countOccs (pat s : List Char) : Nat :=
  (List.range (s.length + 1)).countP (fun i => pat.isPrefixOf (s.drop i))

/-- The token a boolean option contributes to the command string:
`" --" ++ flag` when active, nothing otherwise. -/
def flagTok (b : Bool) (flag : List Char) : List Char :=
  if b then chars " --" ++ flag else []

/-- A filesystem on which every existence check succeeds. -/
def fsAll : FS := ⟨fun _ => true, fun _ => true⟩

/-- A filesystem on which every existence check fails. -/
def fsNone : FS := ⟨fun _ => false, fun _ => false⟩

/-- A directory state in which every directory already exists. -/
def dAll : List Char → Bool := fun _ => true

/-- A configuration with no targets, no excludes and no flags. -/
def argsEmpty : Args :=
  ⟨chars "/a", chars "/b", [], [], [],
   false, false, false, false, false, false, false, false, false, false⟩

/-- `argsEmpty` with `print_cmd_only` set. -/
def argsEmptyPO : Args := { argsEmpty with print_cmd_only := true }

/-- A print-only configuration with one folder target. -/
def argsFolderPO : Args := { argsEmpty with folders := [chars "sub"], print_cmd_only := true }

/-- A raw configuration with only the mirroring flag set. -/
def rawM : Args := { argsEmpty with mirroring := true }

/-- The resolved configuration produced from `rawM`. -/
def aM : Args :=
  { argsEmpty with
    delete := true
    owner := true
    group := true
    executability := true
    mirroring := true }

/-- A raw configuration naming one folder target. -/
def rawF : Args := { argsEmpty with folders := [chars "sub"] }

/-! ### Helper lemmas -/

theorem isPrefixOf_append_self (a b : List Char) : a.isPrefixOf (a ++ b) = true := by
  induction a with
  | nil => simp [List.isPrefixOf]
  | cons c cs ih => simp [List.isPrefixOf, ih]

theorem countOccs_zero_head {pat : List Char} {c : Char} {rest : List Char}
    (h : countOccs pat (c :: rest) = 0) : pat.isPrefixOf (c :: rest) = false := by
  unfold countOccs at h
  rw [List.countP_eq_zero] at h
  have h0 := h 0 (by simp)
  simp only [List.drop_zero] at h0
  exact (Bool.not_eq_true _).mp h0

theorem countOccs_zero_tail {pat : List Char} {c : Char} {rest : List Char}
    (h : countOccs pat (c :: rest) = 0) : countOccs pat rest = 0 := by
  unfold countOccs at h ⊢
  rw [List.countP_eq_zero] at h ⊢
  intro i hi
  have := h (i + 1) (by simp at hi ⊢; omega)
  simpa using this

theorem pyReplaceGo_no_occ {pat new : List Char} :
    ∀ (fuel : Nat) (s : List Char), countOccs pat s = 0 → s.length ≤ fuel →
      pyReplaceGo pat new fuel s = s := by
  intro fuel
  induction fuel with
  | zero =>
    intro s _ hlen
    cases s with
    | nil => rfl
    | cons c cs => simp at hlen
  | succ n ih =>
    intro s hocc hlen
    cases s with
    | nil => rfl
    | cons c cs =>
      have hp := countOccs_zero_head hocc
      simp only [pyReplaceGo, hp]
      simp only [Bool.false_eq_true, if_false]
      have := ih cs (countOccs_zero_tail hocc) (by simpa using Nat.le_of_succ_le_succ hlen)
      rw [this]

theorem pyReplaceGo_append_self {old new : List Char} (h : old ≠ []) (fuel : Nat)
    (t : List Char) :
    pyReplaceGo old new (fuel + 1) (old ++ t) = new ++ pyReplaceGo old new fuel t := by
  cases old with
  | nil => exact absurd rfl h
  | cons o os =>
    have hpre : (o :: os).isPrefixOf (o :: (os ++ t)) = true := by
      have h0 := isPrefixOf_append_self (o :: os) t
      rwa [List.cons_append] at h0
    rw [List.cons_append]
    simp only [pyReplaceGo, List.append_eq] at hpre ⊢
    rw [if_pos hpre]
    congr 1
    have h1 : (o :: os).length - 1 = os.length := by simp
    rw [h1]
    simp [List.drop_left os t]

theorem pyReplace_strip_head {old t : List Char} (h : old ≠ [])
    (hocc : countOccs old t = 0) : pyReplace (old ++ t) old [] = t := by
  unfold pyReplace
  rw [if_neg h]
  obtain ⟨o, os, rfl⟩ : ∃ o os, old = o :: os := by
    cases old with
    | nil => exact absurd rfl h
    | cons o os => exact ⟨o, os, rfl⟩
  have hlen : ((o :: os) ++ t).length = (os.length + t.length) + 1 := by
    rw [List.length_append, List.length_cons]
    omega
  rw [hlen, pyReplaceGo_append_self h _ t,
    pyReplaceGo_no_occ _ t hocc (by omega)]
  rfl

/-! ### C1 -/

/-- C1 (counterexample): for origin `"/a"` and argument `"/a/sub"`
(i.e. origin + "/sub"), resolution does not yield `"sub"`: the claim
that the relative name has no leading separator fails on the code. -/
theorem c1_strip_counterexample :
    remove_origin_arg_from_path_arg (chars "/a") (chars "/a/sub") ≠ chars "sub" := by
  decide

/-- C1 (amended): for an argument equal to the origin followed by a
separator and a relative name, resolution removes the occurrences of
the origin string and strips whitespace, yielding the relative name
with the leading separator retained (e.g. `"/sub"`, not `"sub"`),
provided the origin is nonempty and does not recur in the remainder,
and the remainder has no trailing separator and no surrounding
whitespace. -/
theorem c1_origin_strip_keeps_separator (origin sub : List Char)
    (hor : origin ≠ []) (hsub : sub ≠ [])
    (hlast : sub.getLast? ≠ some sep)
    (hocc : countOccs origin (sep :: sub) = 0)
    (hstrip : pyStrip (sep :: sub) = sep :: sub) :
    remove_origin_arg_from_path_arg origin (origin ++ sep :: sub) = sep :: sub := by
  have hnorm : remove_ending_separator (origin ++ sep :: sub) = origin ++ sep :: sub := by
    unfold remove_ending_separator
    rw [if_neg]
    rw [List.getLast?_append_cons]
    show ¬(sep :: sub).getLast? = some sep
    have : (sep :: sub).getLast? = sub.getLast? := by
      have := List.getLast?_append_of_ne_nil [sep] hsub
      simpa using this
    rw [this]
    exact hlast
  unfold remove_origin_arg_from_path_arg
  rw [hnorm, if_pos (isPrefixOf_append_self ..), pyReplace_strip_head hor hocc, hstrip]

/-- C1 (witness): instantiating the amended claim at origin `"/a"` and
relative name `"sub"` yields `"/sub"`. -/
theorem c1_origin_strip_witness :
    remove_origin_arg_from_path_arg (chars "/a") (chars "/a" ++ sep :: chars "sub")
      = sep :: chars "sub" :=
  c1_origin_strip_keeps_separator (chars "/a") (chars "sub")
    (by decide) (by decide) (by decide) (by decide) (by decide)

/-! ### C3 -/

/-- C3 (counterexample): trailing-separator normalization is not
idempotent: on `"a//"` applying it twice yields `"a"` while applying
it once yields `"a/"`. -/
theorem c3_idempotent_counterexample :
    ¬ remove_ending_separator (remove_ending_separator (chars "a//"))
        = remove_ending_separator (chars "a//") := by
  decide

/-- C3 (amended): normalization removes at most one trailing
separator; it is idempotent on every path that does not end with two
consecutive separators (but not in general). -/
theorem c3_remove_ending_separator_spec (p : List Char) :
    (p = remove_ending_separator p ∨ p = remove_ending_separator p ++ [sep]) ∧
    (¬ [sep, sep] <:+ p →
      remove_ending_separator (remove_ending_separator p) = remove_ending_separator p) := by
  by_cases h : p.getLast? = some sep
  · obtain ⟨q, rfl⟩ : ∃ q, p = q ++ [sep] := by
      rcases List.getLast?_eq_some_iff.mp h with ⟨q, hq⟩
      exact ⟨q, hq⟩
    have h1 : remove_ending_separator (q ++ [sep]) = q := by
      unfold remove_ending_separator
      rw [if_pos (by simp), List.dropLast_concat]
    refine ⟨Or.inr (by rw [h1]), fun hs => ?_⟩
    rw [h1]
    unfold remove_ending_separator
    rw [if_neg]
    intro hq
    rcases List.getLast?_eq_some_iff.mp hq with ⟨r, rfl⟩
    exact hs ⟨r, by simp⟩
  · have h1 : remove_ending_separator p = p := by
      unfold remove_ending_separator
      rw [if_neg h]
    exact ⟨Or.inl h1.symm, fun _ => by rw [h1, h1]⟩

/-- C3 (witness): on `"a/"`, which does not end in two separators,
normalization is idempotent. -/
theorem c3_remove_ending_separator_witness :
    remove_ending_separator (remove_ending_separator (chars "a/"))
      = remove_ending_separator (chars "a/") :=
  (c3_remove_ending_separator_spec (chars "a/")).2 (by decide)

/-! ### C9 -/

/-- C9: origin-prefix stripping is plain string substitution: whenever
the separator-normalized argument starts with the origin string, the
result is the whitespace-stripped outcome of replacing every
(leftmost, nonoverlapping) occurrence of the origin in it; in
particular `"/home/user2"` with origin `"/home/user"` resolves to
`"2"`, and an origin string recurring mid-path is also deleted
(`"/a/x/ay"` with origin `"/a"` resolves to `"/xy"`). -/
theorem c9_substitution_not_component_matching :
    (∀ origin path, origin.isPrefixOf (remove_ending_separator path) = true →
       remove_origin_arg_from_path_arg origin path
         = pyStrip (pyReplace (remove_ending_separator path) origin []))
    ∧ remove_origin_arg_from_path_arg (chars "/home/user") (chars "/home/user2") = chars "2"
    ∧ remove_origin_arg_from_path_arg (chars "/a") (chars "/a/x/ay") = chars "/xy" := by
  refine ⟨fun origin path h => ?_, by decide, by decide⟩
  unfold remove_origin_arg_from_path_arg
  rw [if_pos h]

/-- C9 (witness): the substitution equation instantiated at origin
`"/a"` and path `"/a/b"`. -/
theorem c9_substitution_witness :
    remove_origin_arg_from_path_arg (chars "/a") (chars "/a/b")
      = pyStrip (pyReplace (remove_ending_separator (chars "/a/b")) (chars "/a") []) :=
  c9_substitution_not_component_matching.1 (chars "/a") (chars "/a/b") (by decide)

/-! ### C2 -/

theorem spawn_not_mem_print_and_run (cmd o d c : List Char) :
    Event.spawn c ∉ print_and_run cmd o d true := by
  simp [print_and_run]

theorem spawn_not_mem_folders (args : Args) (cmd c : List Char)
    (h : args.print_cmd_only = true) :
    Event.spawn c ∉ run_rsync_folders args cmd := by
  unfold run_rsync_folders
  induction args.folders with
  | nil => simp
  | cons f l ih =>
    simp only [List.foldr_cons, List.cons_append, List.mem_cons, List.mem_append]
    push_neg
    refine ⟨by simp, ?_, ?_⟩
    · simp [print_and_run, h]
    · simpa using ih

theorem spawn_not_mem_files (args : Args) (cmd c : List Char)
    (h : args.print_cmd_only = true) :
    Event.spawn c ∉ run_rsync_files args cmd := by
  unfold run_rsync_files
  induction args.files with
  | nil => simp
  | cons f l ih =>
    simp only [List.foldr_cons, List.cons_append, List.mem_cons, List.mem_append]
    push_neg
    refine ⟨by simp, ?_, ?_⟩
    · simp [print_and_run, h]
    · simpa using ih

theorem spawn_not_mem_origin_dest (args : Args) (cmd c : List Char)
    (h : args.print_cmd_only = true) :
    Event.spawn c ∉ run_rsync_origin_dest args cmd := by
  unfold run_rsync_origin_dest
  split
  · simp [print_and_run, h]
  · simp

/-- C2 (counterexample): with `print_cmd_only` set and one folder
target, the program still creates the destination subfolder: the
claim that the filesystem is left unchanged fails on the code. -/
theorem c2_print_only_counterexample :
    argsFolderPO.print_cmd_only = true ∧
      Event.mkdirs (chars "/b/sub/") ∈ (pyrsync_main fsAll argsFolderPO).1 := by
  decide

/-- C2 (amended): with `print_cmd_only` set, no child process is ever
spawned, and when neither folders nor files are given the trace is
exactly the printed message (action line plus command) with no
directory creation; destination directories are, however, still
created for folder/file targets. -/
theorem c2_print_only_no_spawn (args : Args) (h : args.print_cmd_only = true) :
    (∀ c, Event.spawn c ∉ run_rsync args) ∧
    (args.folders = [] → args.files = [] →
      run_rsync args
        = [Event.msg args.origin args.dest
            (base_rsync_cmd args ++ chars " \"" ++ args.origin ++ chars "\" \""
              ++ args.dest ++ chars "\"")]) := by
  constructor
  · intro c
    unfold run_rsync
    simp only [List.mem_append]
    push_neg
    exact ⟨⟨spawn_not_mem_folders args _ c h, spawn_not_mem_files args _ c h⟩,
      spawn_not_mem_origin_dest args _ c h⟩
  · intro h1 h2
    unfold run_rsync run_rsync_folders run_rsync_files run_rsync_origin_dest
    rw [h1, h2]
    simp [print_and_run, h]

/-- C2 (witness): the amended claim instantiated at a print-only
configuration with no targets. -/
theorem c2_print_only_witness :
    Event.spawn (chars "x") ∉ run_rsync argsEmptyPO ∧
      run_rsync argsEmptyPO
        = [Event.msg argsEmptyPO.origin argsEmptyPO.dest
            (base_rsync_cmd argsEmptyPO ++ chars " \"" ++ argsEmptyPO.origin
              ++ chars "\" \"" ++ argsEmptyPO.dest ++ chars "\"")] :=
  ⟨(c2_print_only_no_spawn argsEmptyPO rfl).1 (chars "x"),
   (c2_print_only_no_spawn argsEmptyPO rfl).2 rfl rfl⟩

/-! ### C7 -/

/-- C7: when both the folder list and the file list are empty, the
run consists of exactly one synchronization, origin to destination
directly (one spawned process when not print-only); when at least one
folder or file is given, the whole-origin fallback produces no events
at all. -/
theorem c7_whole_origin_fallback (args : Args) :
    (args.folders = [] → args.files = [] →
      run_rsync args
        = print_and_run (base_rsync_cmd args) args.origin args.dest args.print_cmd_only ∧
      (args.print_cmd_only = false → (run_rsync args).countP Event.isSpawn = 1)) ∧
    (∀ cmd : List Char, args.folders ≠ [] ∨ args.files ≠ [] →
      run_rsync_origin_dest args cmd = []) := by
  constructor
  · intro h1 h2
    have hr : run_rsync args
        = print_and_run (base_rsync_cmd args) args.origin args.dest args.print_cmd_only := by
      unfold run_rsync run_rsync_folders run_rsync_files run_rsync_origin_dest
      rw [h1, h2]
      simp
    refine ⟨hr, fun hp => ?_⟩
    rw [hr]
    simp [print_and_run, hp, Event.isSpawn]
  · intro cmd hne
    unfold run_rsync_origin_dest
    rw [if_neg]
    rcases hne with hne | hne <;> simp [hne]

/-- C7 (witness): the fallback equations instantiated at the empty
configuration and at a configuration with one folder. -/
theorem c7_whole_origin_fallback_witness :
    run_rsync argsEmpty
        = print_and_run (base_rsync_cmd argsEmpty) argsEmpty.origin argsEmpty.dest
            argsEmpty.print_cmd_only ∧
      (run_rsync argsEmpty).countP Event.isSpawn = 1 ∧
      run_rsync_origin_dest argsFolderPO (chars "rsync -rulHt") = [] :=
  ⟨((c7_whole_origin_fallback argsEmpty).1 rfl rfl).1,
   ((c7_whole_origin_fallback argsEmpty).1 rfl rfl).2 rfl,
   (c7_whole_origin_fallback argsFolderPO).2 (chars "rsync -rulHt") (Or.inl (by decide))⟩

/-! ### C8 -/

theorem getLast?_snoc_sep (y : List Char) : (y ++ [sep]).getLast? = some sep := by
  simp

theorem getLast?_join_sep (a x : List Char) :
    (os_path_join a (x ++ [sep])).getLast? = some sep := by
  unfold os_path_join
  split_ifs with h1 h2
  · exact getLast?_snoc_sep x
  · rw [← List.append_assoc]
    exact getLast?_snoc_sep (a ++ x)
  · have h3 : a ++ sep :: (x ++ [sep]) = (a ++ sep :: x) ++ [sep] := by
      rw [List.append_assoc]
      rfl
    rw [h3]
    exact getLast?_snoc_sep (a ++ sep :: x)

/-- C8: for every resolved folder target the executor first creates
the destination subfolder and only then prints/invokes the tool, with
both the source and the destination path carrying a trailing
separator; and directory creation treats an already-existing
directory as success (it returns the unchanged directory state rather
than an error). -/
theorem c8_folders_mkdir_then_run (args : Args) (rsync_cmd : List Char) :
    run_rsync_folders args rsync_cmd
      = args.folders.foldr
          (fun folder acc =>
            Event.mkdirs (os_path_join args.dest (folder ++ [sep])) ::
              (print_and_run rsync_cmd (os_path_join args.origin (folder ++ [sep]))
                (os_path_join args.dest (folder ++ [sep])) args.print_cmd_only ++ acc))
          []
    ∧ (∀ folder : List Char,
        (os_path_join args.origin (folder ++ [sep])).getLast? = some sep ∧
        (os_path_join args.dest (folder ++ [sep])).getLast? = some sep)
    ∧ (∀ (d : List Char → Bool) (p : List Char), d p = true → force_mkdirs d p = d) := by
  refine ⟨by simp [run_rsync_folders], fun folder => ⟨getLast?_join_sep .., getLast?_join_sep ..⟩,
    fun d p hd => ?_⟩
  simp [force_mkdirs, os_makedirs, hd]

/-- C8 (witness): the trailing-separator and idempotent-creation
facts instantiated at folder `"sub"` and an all-existing directory
state. -/
theorem c8_folders_mkdir_witness :
    ((os_path_join argsEmpty.origin (chars "sub" ++ [sep])).getLast? = some sep ∧
      (os_path_join argsEmpty.dest (chars "sub" ++ [sep])).getLast? = some sep) ∧
      force_mkdirs dAll (chars "/b") = dAll :=
  ⟨(c8_folders_mkdir_then_run argsEmpty (chars "rsync -rulHt")).2.1 (chars "sub"),
   (c8_folders_mkdir_then_run argsEmpty (chars "rsync -rulHt")).2.2 dAll (chars "/b") rfl⟩

/-! ### Builder lemmas (shared by C4, C6, C10) -/

theorem foldl_flagStep (l : List (Bool × List Char)) (cmd : List Char) :
    l.foldl
        (fun c p =>
          if p.1 then c ++ chars " --" ++ pyReplace p.2 (chars "_") (chars "-") else c)
        cmd
      = cmd ++ (l.map
          (fun p =>
            if p.1 then chars " --" ++ pyReplace p.2 (chars "_") (chars "-") else [])).flatten := by
  induction l generalizing cmd with
  | nil => simp
  | cons p l ih =>
    rw [List.foldl_cons, List.map_cons, List.flatten_cons]
    cases hp : p.1
    · simpa using ih cmd
    · simpa [List.append_assoc] using
        ih (cmd ++ chars " --" ++ pyReplace p.2 (chars "_") (chars "-"))

theorem add_boolean_eq (args : Args) (cmd : List Char) :
    add_boolean_rsync_options args cmd
      = cmd ++ flagTok args.delete (chars "delete") ++ flagTok args.verbose (chars "verbose")
          ++ flagTok args.progress (chars "progress") ++ flagTok args.owner (chars "owner")
          ++ flagTok args.group (chars "group")
          ++ flagTok args.executability (chars "executability")
          ++ flagTok args.dry_run (chars "dry-run")
          ++ flagTok args.delete_excluded (chars "delete-excluded") := by
  have e1 : pyReplace (chars "delete") (chars "_") (chars "-") = chars "delete" := by decide
  have e2 : pyReplace (chars "verbose") (chars "_") (chars "-") = chars "verbose" := by decide
  have e3 : pyReplace (chars "progress") (chars "_") (chars "-") = chars "progress" := by
    decide
  have e4 : pyReplace (chars "owner") (chars "_") (chars "-") = chars "owner" := by decide
  have e5 : pyReplace (chars "group") (chars "_") (chars "-") = chars "group" := by decide
  have e6 : pyReplace (chars "executability") (chars "_") (chars "-")
      = chars "executability" := by decide
  have e7 : pyReplace (chars "dry_run") (chars "_") (chars "-") = chars "dry-run" := by decide
  have e8 : pyReplace (chars "delete_excluded") (chars "_") (chars "-")
      = chars "delete-excluded" := by decide
  unfold add_boolean_rsync_options optPairs
  rw [foldl_flagStep]
  simp [e1, e2, e3, e4, e5, e6, e7, e8, flagTok, List.append_assoc]

/-! ### C6 -/

/-- C6: the command builder appends exactly one flag token per active
boolean option, in the fixed order delete, verbose, progress, owner,
group, executability, dry-run, delete-excluded, and then one exclude
token per pattern in input order (the exclude tokens being the
space-joined wrapped patterns, wrapping preserving input order). -/
theorem c6_builder_token_order (args : Args) (cmd : List Char) :
    (add_boolean_rsync_options args cmd
      = cmd ++ flagTok args.delete (chars "delete") ++ flagTok args.verbose (chars "verbose")
          ++ flagTok args.progress (chars "progress") ++ flagTok args.owner (chars "owner")
          ++ flagTok args.group (chars "group")
          ++ flagTok args.executability (chars "executability")
          ++ flagTok args.dry_run (chars "dry-run")
          ++ flagTok args.delete_excluded (chars "delete-excluded"))
    ∧ add_exclude_rsync_options args cmd
        = cmd ++ chars " " ++ pyJoin (chars " ") args.exclude
    ∧ ∀ l : List (List Char),
        set_excludes_args l = l.map (fun e => chars "--exclude \"" ++ e ++ chars "\"") :=
  ⟨add_boolean_eq args cmd, rfl, fun _ => rfl⟩

/-! ### C10 -/

theorem lastNotSpace_append (x t : List Char) (hx : x.getLast? ≠ some ' ')
    (ht : t = [] ∨ t.getLast? ≠ some ' ') : (x ++ t).getLast? ≠ some ' ' := by
  by_cases hT : t = []
  · simpa [hT] using hx
  · rw [List.getLast?_append_of_ne_nil x hT]
    rcases ht with ht | ht
    · exact absurd ht hT
    · exact ht

theorem flagTok_lastNotSpace (b : Bool) (f : List Char)
    (hf : (chars " --" ++ f).getLast? ≠ some ' ') :
    flagTok b f = [] ∨ (flagTok b f).getLast? ≠ some ' ' := by
  cases b
  · exact Or.inl rfl
  · exact Or.inr (by simpa [flagTok] using hf)

/-- C10: every built command starts with the fixed, unconditional
prefix `"rsync -rulHt"`, and when the exclude list is empty the base
command is the boolean-options command followed by a single trailing
space (the boolean-options command itself never ends in a space). -/
theorem c10_fixed_rsync_base (args : Args) :
    (∃ rest, base_rsync_cmd args = chars "rsync -rulHt" ++ rest) ∧
    (args.exclude = [] →
      base_rsync_cmd args
          = add_boolean_rsync_options args (chars "rsync -rulHt") ++ chars " " ∧
      (add_boolean_rsync_options args (chars "rsync -rulHt")).getLast? ≠ some ' ') := by
  constructor
  · refine ⟨flagTok args.delete (chars "delete") ++ flagTok args.verbose (chars "verbose")
      ++ flagTok args.progress (chars "progress") ++ flagTok args.owner (chars "owner")
      ++ flagTok args.group (chars "group")
      ++ flagTok args.executability (chars "executability")
      ++ flagTok args.dry_run (chars "dry-run")
      ++ flagTok args.delete_excluded (chars "delete-excluded")
      ++ chars " " ++ pyJoin (chars " ") args.exclude, ?_⟩
    simp [base_rsync_cmd, add_exclude_rsync_options, add_boolean_eq, List.append_assoc]
  · intro hex
    have hjoin : pyJoin (chars " ") ([] : List (List Char)) = [] := rfl
    constructor
    · simp [base_rsync_cmd, add_exclude_rsync_options, hex, hjoin]
    · rw [add_boolean_eq]
      exact lastNotSpace_append _ _ (lastNotSpace_append _ _ (lastNotSpace_append _ _
        (lastNotSpace_append _ _ (lastNotSpace_append _ _ (lastNotSpace_append _ _
          (lastNotSpace_append _ _ (lastNotSpace_append _ _ (by decide)
                (flagTok_lastNotSpace _ _ (by decide)))
              (flagTok_lastNotSpace _ _ (by decide)))
            (flagTok_lastNotSpace _ _ (by decide)))
          (flagTok_lastNotSpace _ _ (by decide)))
        (flagTok_lastNotSpace _ _ (by decide)))
        (flagTok_lastNotSpace _ _ (by decide)))
        (flagTok_lastNotSpace _ _ (by decide)))
        (flagTok_lastNotSpace _ _ (by decide))

/-- C10 (witness): the empty-exclude facts instantiated at the empty
configuration. -/
theorem c10_fixed_rsync_base_witness :
    base_rsync_cmd argsEmpty
        = add_boolean_rsync_options argsEmpty (chars "rsync -rulHt") ++ chars " " ∧
      (add_boolean_rsync_options argsEmpty (chars "rsync -rulHt")).getLast? ≠ some ' ' :=
  (c10_fixed_rsync_base argsEmpty).2 rfl

/-! ### C4 -/

theorem add_boolean_mirror_only (a : Args) (hd : a.delete = true) (ho : a.owner = true)
    (hg : a.group = true) (he : a.executability = true) (hv : a.verbose = false)
    (hp : a.progress = false) (hr : a.dry_run = false) (hx : a.delete_excluded = false) :
    add_boolean_rsync_options a (chars "rsync -rulHt")
      = chars "rsync -rulHt --delete --owner --group --executability" := by
  simp only [add_boolean_rsync_options, optPairs, hd, ho, hg, he, hv, hp, hr, hx]
  decide

/-- C4: whenever mirroring is set, the configuration produced by
resolution has delete, owner, group and executability forced to true
regardless of their raw values; and when no other boolean option is
set, the command built from the resolved configuration contains each
of `--delete`, `--owner`, `--group`, `--executability` exactly once. -/
theorem c4_mirroring_forces_flags (fs : FS) (raw a : Args) (hm : raw.mirroring = true)
    (hok : init_args fs raw = Except.ok a) :
    (a.delete = true ∧ a.owner = true ∧ a.group = true ∧ a.executability = true) ∧
    (raw.verbose = false → raw.progress = false → raw.dry_run = false →
      raw.delete_excluded = false →
      countOccs (chars "--delete")
          (add_boolean_rsync_options a (chars "rsync -rulHt")) = 1 ∧
      countOccs (chars "--owner")
          (add_boolean_rsync_options a (chars "rsync -rulHt")) = 1 ∧
      countOccs (chars "--group")
          (add_boolean_rsync_options a (chars "rsync -rulHt")) = 1 ∧
      countOccs (chars "--executability")
          (add_boolean_rsync_options a (chars "rsync -rulHt")) = 1) := by
  simp only [init_args] at hok
  split at hok
  · cases hok
  · split at hok
    · cases hok
    · rw [if_pos (by simpa using hm)] at hok
      injection hok with hok
      subst hok
      refine ⟨⟨rfl, rfl, rfl, rfl⟩, fun hv hp hr hx => ?_⟩
      rw [add_boolean_mirror_only _ rfl rfl rfl rfl (by simpa using hv) (by simpa using hp)
        (by simpa using hr) (by simpa using hx)]
      exact ⟨by decide, by decide, by decide, by decide⟩

/-- C4 (witness): the mirroring expansion instantiated at a raw
configuration with only the mirroring flag set. -/
theorem c4_mirroring_forces_flags_witness :
    (aM.delete = true ∧ aM.owner = true ∧ aM.group = true ∧ aM.executability = true) ∧
    (countOccs (chars "--delete")
        (add_boolean_rsync_options aM (chars "rsync -rulHt")) = 1 ∧
      countOccs (chars "--owner")
        (add_boolean_rsync_options aM (chars "rsync -rulHt")) = 1 ∧
      countOccs (chars "--group")
        (add_boolean_rsync_options aM (chars "rsync -rulHt")) = 1 ∧
      countOccs (chars "--executability")
        (add_boolean_rsync_options aM (chars "rsync -rulHt")) = 1) := by
  have h := c4_mirroring_forces_flags fsNone rawM aM rfl rfl
  exact ⟨h.1, h.2 rfl rfl rfl rfl⟩

/-! ### C5 -/

theorem set_folders_error_shape (fs : FS) (o : List Char) :
    ∀ (l : List (List Char)) (e : List Char), set_folders_args fs o l = Except.error e →
      ∃ p, fs.pathExists p = false ∧ e = chars "Folder does not exist on origin: " ++ p := by
  intro l
  induction l with
  | nil =>
    intro e he
    simp [set_folders_args] at he
  | cons f rest ih =>
    intro e he
    simp only [set_folders_args] at he
    split_ifs at he with hex
    · split at he
      · cases he
      · rename_i e' heq
        injection he with he
        subst he
        exact ih e' heq
    · injection he with he
      subst he
      exact ⟨os_path_join o (remove_origin_arg_from_path_arg o f),
        (Bool.not_eq_true _).mp hex, rfl⟩

theorem set_files_error_shape (fs : FS) (o : List Char) :
    ∀ (l : List (List Char)) (e : List Char), set_files_args fs o l = Except.error e →
      ∃ p, fs.isfile p = false ∧ e = chars "File does not exist on origin: " ++ p := by
  intro l
  induction l with
  | nil =>
    intro e he
    simp [set_files_args] at he
  | cons f rest ih =>
    intro e he
    simp only [set_files_args] at he
    split_ifs at he with hex
    · split at he
      · cases he
      · rename_i e' heq
        injection he with he
        subst he
        exact ih e' heq
    · injection he with he
      subst he
      exact ⟨os_path_join o (remove_origin_arg_from_path_arg o f),
        (Bool.not_eq_true _).mp hex, rfl⟩

theorem set_folders_missing (fs : FS) (o : List Char) :
    ∀ l : List (List Char),
      (∃ f ∈ l, fs.pathExists (os_path_join o (remove_origin_arg_from_path_arg o f)) = false) →
      ∃ e, set_folders_args fs o l = Except.error e := by
  intro l
  induction l with
  | nil =>
    rintro ⟨f, hf, _⟩
    cases hf
  | cons g rest ih =>
    rintro ⟨f, hf, hmiss⟩
    simp only [set_folders_args]
    by_cases hg : fs.pathExists (os_path_join o (remove_origin_arg_from_path_arg o g)) = true
    · rw [if_pos hg]
      rcases List.mem_cons.mp hf with rfl | hf2
      · rw [hg] at hmiss
        cases hmiss
      · obtain ⟨e, he⟩ := ih ⟨f, hf2, hmiss⟩
        rw [he]
        exact ⟨e, rfl⟩
    · rw [if_neg hg]
      exact ⟨_, rfl⟩

theorem set_files_missing (fs : FS) (o : List Char) :
    ∀ l : List (List Char),
      (∃ f ∈ l, fs.isfile (os_path_join o (remove_origin_arg_from_path_arg o f)) = false) →
      ∃ e, set_files_args fs o l = Except.error e := by
  intro l
  induction l with
  | nil =>
    rintro ⟨f, hf, _⟩
    cases hf
  | cons g rest ih =>
    rintro ⟨f, hf, hmiss⟩
    simp only [set_files_args]
    by_cases hg : fs.isfile (os_path_join o (remove_origin_arg_from_path_arg o g)) = true
    · rw [if_pos hg]
      rcases List.mem_cons.mp hf with rfl | hf2
      · rw [hg] at hmiss
        cases hmiss
      · obtain ⟨e, he⟩ := ih ⟨f, hf2, hmiss⟩
        rw [he]
        exact ⟨e, rfl⟩
    · rw [if_neg hg]
      exact ⟨_, rfl⟩

/-- C5: if some folder target (or, all folders existing, some file
target) does not exist under the normalized origin, then the whole
run aborts during resolution: the event trace is empty (no directory
creation, no message, no spawned process) and the reported error
names a path that indeed does not exist. -/
theorem c5_missing_target_fail_fast (fs : FS) (raw : Args)
    (h : (∃ f ∈ raw.folders,
            fs.pathExists (os_path_join (remove_ending_separator raw.origin)
              (remove_origin_arg_from_path_arg (remove_ending_separator raw.origin) f))
              = false)
       ∨ (∃ g ∈ raw.files,
            fs.isfile (os_path_join (remove_ending_separator raw.origin)
              (remove_origin_arg_from_path_arg (remove_ending_separator raw.origin) g))
              = false)) :
    ∃ e, pyrsync_main fs raw = ([], some e) ∧
      ∃ p, (fs.pathExists p = false ∧ e = chars "Folder does not exist on origin: " ++ p)
         ∨ (fs.isfile p = false ∧ e = chars "File does not exist on origin: " ++ p) := by
  cases hfo : set_folders_args fs (remove_ending_separator raw.origin) raw.folders with
  | error e =>
    obtain ⟨p, hp, rfl⟩ := set_folders_error_shape fs _ raw.folders e hfo
    refine ⟨_, ?_, p, Or.inl ⟨hp, rfl⟩⟩
    simp [pyrsync_main, init_args, hfo]
  | ok fl =>
    rcases h with hfolders | hfiles
    · obtain ⟨e, he⟩ := set_folders_missing fs _ raw.folders hfolders
      rw [hfo] at he
      cases he
    · cases hfi : set_files_args fs (remove_ending_separator raw.origin) raw.files with
      | error e =>
        obtain ⟨p, hp, rfl⟩ := set_files_error_shape fs _ raw.files e hfi
        refine ⟨_, ?_, p, Or.inr ⟨hp, rfl⟩⟩
        simp [pyrsync_main, init_args, hfo, hfi]
      | ok fi =>
        obtain ⟨e, he⟩ := set_files_missing fs _ raw.files hfiles
        rw [hfi] at he
        cases he

/-- C5 (witness): a configuration naming folder `"sub"` over a
filesystem with no paths fails during resolution with an empty event
trace. -/
theorem c5_missing_target_witness :
    ∃ e, pyrsync_main fsNone rawF = ([], some e) ∧
      ∃ p, (fsNone.pathExists p = false
              ∧ e = chars "Folder does not exist on origin: " ++ p)
         ∨ (fsNone.isfile p = false
              ∧ e = chars "File does not exist on origin: " ++ p) :=
  c5_missing_target_fail_fast fsNone rawF
    (Or.inl ⟨chars "sub", by decide, by decide⟩)

end Pyrsync
